import Mathlib

/-!
# Verification of the automation template-matcher core

Shallow embedding of the Go repository Carmen-Shannon/automation:
the fuzzy template-matching scorer (tools/matcher/matcher_tools.go),
the match coordinator front end (tools/matcher/matcher.go), and the
dynamic worker pool (tools/worker/pool.go).

Modelling conventions:
* Go float64 arithmetic is modelled over the rationals.  All pixel data
  are byte values, so sums, squares and differences are exact; math.Sqrt
  is modelled by ratSqrt, a nonnegative computable square root that is
  exact on perfect squares (the only property the theorems use is
  nonnegativity, apart from concrete perfect-square inputs).
* Go int() conversion of a nonnegative float is the floor; all values
  converted in this code are nonnegative.
* Pixel buffers are modelled as total functions from byte offsets to
  byte values; the searched windows lie inside the buffers, so
  out-of-range accesses do not occur in the modelled executions.
-/

/-- Models tools.CalcBytesPerPixel (tools/tools.go). -/
def calcBytesPerPixel (bitCount : ℕ) : ℕ :=
  if bitCount ≥ 8 then bitCount / 8 else 1

/-- Minimal model of display.BMP: the fields read by the matcher.
Data maps a byte offset to the byte stored there. -/
structure BMP where
  Width : ℕ
  Height : ℕ
  BiBitCount : ℕ
  BiHeight : ℤ
  Data : ℕ → ℕ

/-- Models math.Sqrt on the nonnegative rationals: exact on perfect
squares with denominator 1, and always nonnegative. -/
def ratSqrt (q : ℚ) : ℚ :=
  ((Nat.sqrt (q.num.toNat * q.den) : ℕ) : ℚ) / ((q.den : ℕ) : ℚ)

theorem ratSqrt_nonneg (q : ℚ) : 0 ≤ ratSqrt q := by
  unfold ratSqrt
  positivity

/-- getPatchSumSq (matcher_tools.go line 435): inclusion-exclusion
query on the integral image; integral y x stands for integral[y][x]. -/
def getPatchSumSq (integral : ℕ → ℕ → ℚ) (x y w h : ℕ) : ℚ :=
  integral (y + h) (x + w) - integral y (x + w) - integral (y + h) x + integral y x

/-- Squared channel sum of the pixel whose top-left byte sits at
y*rowSize + x*bpp, as accumulated by buildIntegralImageSq. -/
def pixSumSq (data : ℕ → ℕ) (rowSize bpp x y : ℕ) : ℚ :=
  let pixelStart := y * rowSize + x * bpp
  let r : ℚ := data pixelStart
  let g : ℚ := data (pixelStart + 1)
  let b : ℚ := data (pixelStart + 2)
  r * r + g * g + b * b

/-- Row y+1 of the integral image, given row y: entry x+1 follows the
source recurrence value + above + left - above-left. -/
def integralRowAux (data : ℕ → ℕ) (rowSize bpp y : ℕ) (prevRow : ℕ → ℚ) : ℕ → ℚ
  | 0 => 0
  | x + 1 =>
    pixSumSq data rowSize bpp x y
      + prevRow (x + 1)
      + integralRowAux data rowSize bpp y prevRow x
      - prevRow x

/-- buildIntegralImageSq (matcher_tools.go line 416): the (H+1)x(W+1)
prefix table with zeroed row/column 0, built by the source recurrence
integral[y+1][x+1] = val + integral[y][x+1] + integral[y+1][x] - integral[y][x],
computed row by row exactly as the double loop fills the table. -/
def buildIntegralImageSq (data : ℕ → ℕ) (rowSize bpp : ℕ) : ℕ → ℕ → ℚ
  | 0 => fun _ => 0
  | y + 1 => integralRowAux data rowSize bpp y (buildIntegralImageSq data rowSize bpp y)

/-- Squared per-channel error contributed by template pixel (col,row)
for the window anchored at (startX,startY): the body of the inner loop
of calculateMSE (matcher_tools.go lines 57-72). -/
def pixelErr (largeData smallData : ℕ → ℕ)
    (startX startY largeRowSize smallRowSize largeBpp smallBpp : ℕ)
    (row col : ℕ) : ℚ :=
  let largePixelStart := (startY + row) * largeRowSize + startX * largeBpp + col * largeBpp
  let smallPixelStart := row * smallRowSize + col * smallBpp
  let dr : ℚ := (largeData largePixelStart : ℚ) - (smallData smallPixelStart : ℚ)
  let dg : ℚ := (largeData (largePixelStart + 1) : ℚ) - (smallData (smallPixelStart + 1) : ℚ)
  let db : ℚ := (largeData (largePixelStart + 2) : ℚ) - (smallData (smallPixelStart + 2) : ℚ)
  dr * dr + dg * dg + db * db

/-- The per-pixel errors in the row-major order the loop visits them. -/
def windowErrs (largeData smallData : ℕ → ℕ)
    (startX startY largeRowSize smallRowSize largeBpp smallBpp
      smallWidth smallHeight : ℕ) : List ℚ :=
  (List.range smallHeight).flatMap fun row =>
    (List.range smallWidth).map fun col =>
      pixelErr largeData smallData startX startY largeRowSize smallRowSize
        largeBpp smallBpp row col

/-- The accumulation loop of calculateMSE: add errors in order and stop
the moment the running total exceeds the limit, returning the running
total at the stopping point (matcher_tools.go lines 57-84). -/
def accumUntil (limit : ℚ) : List ℚ → ℚ → ℚ
  | [], acc => acc
  | e :: rest, acc =>
    let acc2 := acc + e
    if limit < acc2 then acc2 else accumUntil limit rest acc2

/-- calculateMSE (matcher_tools.go lines 33-90).  In normalized mode the
denominator is sqrt(sumTemplateSq * patchSumSq) with the 1e-6 degenerate
guard returning 1; in plain mode it is pixelCount*3.  Both the abort
return and the final return divide the accumulated error by the same
denominator, which the accumUntil factoring makes explicit. -/
def calculateMSE (largeData smallData : ℕ → ℕ)
    (startX startY largeRowSize smallRowSize largeBpp smallBpp
      smallWidth smallHeight : ℕ)
    (normed : Bool) (sumTemplateSq : ℚ) (integral : ℕ → ℕ → ℚ)
    (mseThreshold : ℚ) : ℚ :=
  let pixelCount := smallWidth * smallHeight
  let errs := windowErrs largeData smallData startX startY largeRowSize
    smallRowSize largeBpp smallBpp smallWidth smallHeight
  if normed then
    let sumPatchSq := getPatchSumSq integral startX startY smallWidth smallHeight
    let denom := ratSqrt (sumTemplateSq * sumPatchSq)
    if denom < 1 / 1000000 then 1
    else accumUntil (mseThreshold * denom) errs 0 / denom
  else
    accumUntil (mseThreshold * ((pixelCount : ℚ) * 3)) errs 0 / ((pixelCount : ℚ) * 3)

/-- The full (no early abort) computation the spec compares against:
identical to calculateMSE except that the whole template footprint is
always accumulated.  Clearly-named refinement partner following the
words of the spec ("the fully accumulated score over the whole template
footprint"). -/
def calculateMSEFull (largeData smallData : ℕ → ℕ)
    (startX startY largeRowSize smallRowSize largeBpp smallBpp
      smallWidth smallHeight : ℕ)
    (normed : Bool) (sumTemplateSq : ℚ) (integral : ℕ → ℕ → ℚ) : ℚ :=
  let pixelCount := smallWidth * smallHeight
  let errs := windowErrs largeData smallData startX startY largeRowSize
    smallRowSize largeBpp smallBpp smallWidth smallHeight
  if normed then
    let sumPatchSq := getPatchSumSq integral startX startY smallWidth smallHeight
    let denom := ratSqrt (sumTemplateSq * sumPatchSq)
    if denom < 1 / 1000000 then 1
    else errs.sum / denom
  else
    errs.sum / ((pixelCount : ℚ) * 3)

/-- Outcome of the per-window decision logic in submitTasks, recording
how many verification recomputes ran before the window was accepted. -/
inductive Decision where
  | accepted (rechecks : ℕ)
  | rejected
deriving DecidableEq

/-- The per-window decision logic of the task body in submitTasks
(matcher_tools.go lines 346-386), for the case where the shared found
flag has not yet been claimed: score ≤ threshold/5 accepts at once;
otherwise score ≤ threshold accepts, preceded by one verification
recompute exactly when score > threshold*0.9, rejecting if the recompute
exceeds the threshold; score > threshold rejects. -/
def windowDecision (largeData smallData : ℕ → ℕ)
    (startX startY largeRowSize smallRowSize largeBpp smallBpp
      smallWidth smallHeight : ℕ)
    (sumTemplateSq : ℚ) (integral : ℕ → ℕ → ℚ) (mseThreshold : ℚ) : Decision :=
  let mse := calculateMSE largeData smallData startX startY largeRowSize
    smallRowSize largeBpp smallBpp smallWidth smallHeight true
    sumTemplateSq integral mseThreshold
  if mse ≤ mseThreshold / 5 then .accepted 0
  else if mse ≤ mseThreshold then
    if mseThreshold * (9 / 10) < mse then
      let validationMSE := calculateMSE largeData smallData startX startY
        largeRowSize smallRowSize largeBpp smallBpp smallWidth smallHeight true
        sumTemplateSq integral mseThreshold
      if mseThreshold < validationMSE then .rejected else .accepted 1
    else .accepted 0
  else .rejected

/-! ## Chunk partitioner (chunkBMP, matcher_tools.go lines 100-178) -/

/-- A chunk of the scan, as produced by chunkBMP. -/
structure Chunk where
  Data : List ℕ
  X : ℕ
  Y : ℕ
  Width : ℕ
  Height : ℕ
deriving DecidableEq

/-- extractChunk (matcher_tools.go lines 190-207): copies the chunk
bytes out of the scan buffer, with the single-copy fast path when the
chunk rows are contiguous within one scan row span. -/
def extractChunk (data : ℕ → ℕ)
    (startX startY chunkWidth chunkHeight rowSize bpp : ℕ) : List ℕ :=
  let chunkSize := chunkWidth * chunkHeight * bpp
  if startX * bpp + chunkWidth * bpp ≤ rowSize then
    let srcOffset := startY * rowSize + startX * bpp
    (List.range chunkSize).map fun i => data (srcOffset + i)
  else
    (List.range chunkHeight).flatMap fun row =>
      (List.range (chunkWidth * bpp)).map fun i =>
        data ((startY + row) * rowSize + startX * bpp + i)

/-- The chunk width/height formula of chunkBMP (lines 104-117): the
adaptive size capped at a third of the scan, overridden to the whole
scan axis when the scan is less than six templates wide.  Go int() of
the nonnegative float product is the floor. -/
def chunkDimFor (wTotal t : ℕ) : ℕ :=
  let sizeQuot : ℚ := (wTotal : ℚ) / (t : ℚ)
  let base := min (Int.toNat ⌊(t : ℚ) * min 6 (max 2 (sizeQuot / 4))⌋) (wTotal / 3)
  if wTotal < t * 6 then wTotal else base

/-- The overlap formula of chunkBMP (lines 119-126); the whole-axis
override applies exactly when the chunk dimension equals the scan
dimension. -/
def overlapDimFor (wTotal t cdim : ℕ) : ℕ :=
  if cdim = wTotal then t
  else max (t - 1) (Int.toNat ⌊(t : ℚ) / max (3 / 2 : ℚ) (((wTotal : ℚ) / (t : ℚ)) / 8)⌋)

/-- Start offsets of the sliding loop for x = 0; x < limit; x += stride
(stride > 0): the multiples of stride below limit. -/
def gridStarts (limit stride : ℕ) : List ℕ :=
  (List.range ((limit + stride - 1) / stride)).map fun k => k * stride

/-- One candidate chunk of the grid (the loop body, lines 140-165):
clip to the scan, drop if thinner than the template in either axis. -/
def chunkAt (data : ℕ → ℕ) (wTotal hTotal tw th cw ch rowSize bpp : ℕ)
    (x y : ℕ) : Option Chunk :=
  let actualW := if wTotal < x + cw then wTotal - x else cw
  if actualW < tw then none
  else
    let actualH := if hTotal < y + ch then hTotal - y else ch
    if actualH < th then none
    else some ⟨extractChunk data x y actualW actualH rowSize bpp, x, y, actualW, actualH⟩

/-- chunkBMP (matcher_tools.go lines 100-178).  When a stride is not
positive the Go code does not return (zero stride panics with a division
by zero when sizing the row table, or loops forever in the sliding
loop); that divergence is modelled as none.  Otherwise the flattened
row-major grid of kept chunks is returned. -/
def chunkBMP (largeBMP : BMP) (smallWidth smallHeight : ℕ) : Option (List Chunk) :=
  let bpp := calcBytesPerPixel largeBMP.BiBitCount
  let rowSize := ((largeBMP.Width * bpp + 3) / 4) * 4
  let cw := chunkDimFor largeBMP.Width smallWidth
  let ch := chunkDimFor largeBMP.Height smallHeight
  let ox := overlapDimFor largeBMP.Width smallWidth cw
  let oy := overlapDimFor largeBMP.Height smallHeight ch
  if cw ≤ ox ∨ ch ≤ oy then none
  else
    some ((gridStarts largeBMP.Height (ch - oy)).flatMap fun y =>
      (gridStarts largeBMP.Width (cw - ox)).filterMap fun x =>
        chunkAt largeBMP.Data largeBMP.Width largeBMP.Height smallWidth smallHeight
          cw ch rowSize bpp x y)

/-! ## Matcher front end (matcher.go) -/

/-- validateBMPDimensions (matcher_tools.go lines 408-413). -/
def validateBMPDimensions (largeBMP smallBMP : BMP) : Option String :=
  if smallBMP.Width > largeBMP.Width ∨ smallBMP.Height > largeBMP.Height then
    some "small BMP dimensions exceed large BMP dimensions"
  else none

/-- The alternating two-pointer assignment order of splitChunksForWorkers:
one chunk from the front, one from the back, repeating inward. -/
def twoPointerOrder : List Chunk → List Chunk
  | [] => []
  | c :: rest => c :: twoPointerOrder rest.reverse
  termination_by l => l.length
  decreasing_by simp

/-- splitChunksForWorkers (matcher_tools.go lines 277-298): the k-th
chunk in two-pointer order goes to group k mod numWorkers; exactly
numWorkers groups are built. -/
def splitChunksForWorkers (chunks : List Chunk) (numWorkers : ℕ) : List (List Chunk) :=
  (List.range numWorkers).map fun g =>
    ((twoPointerOrder chunks).enum.filter fun p => p.1 % numWorkers = g).map Prod.snd

/-- The prefix of FindTemplate (matcher.go lines 61-112) that decides
between the dimension error and scheduling work: on a validation error
it returns at once with no task submitted; otherwise one task per chunk
group is submitted.  The pair is (returned error, number of pool
submissions); the divergence of chunkBMP (none) also submits nothing. -/
def findTemplateStart (scan template : BMP) (numWorkers : ℕ) : Option String × ℕ :=
  match validateBMPDimensions scan template with
  | some e => (some e, 0)
  | none =>
    match chunkBMP scan template.Width template.Height with
    | none => (none, 0)
    | some chunks => (none, (splitChunksForWorkers chunks numWorkers).length)

/-! ## Dynamic worker pool (tools/worker/pool.go, tools/worker/worker.go) -/

/-- A worker as the pool sees it: its id and its active flag
(worker.Start sets the flag, worker.Stop clears it). -/
structure WorkerState where
  id : ℕ
  active : Bool
deriving DecidableEq

/-- The lock-protected bookkeeping of dynamicWorkerPool: the ceiling,
the worker fleet, the queued-task count, the active counter and the
stopped flag.  Channels and the context are abstracted to the queue
length, which is all the modelled operations read. -/
structure PoolState where
  maxWorkers : ℕ
  workers : List WorkerState
  queueLen : ℕ
  activeWorkers : ℕ
  stopped : Bool
deriving DecidableEq

/-- initWorkers (pool.go lines 221-228). -/
def initWorkers (m : ℕ) : List WorkerState :=
  (List.range m).map fun i => ⟨i, false⟩

/-- NewDynamicWorkerPool (pool.go lines 90-110); a non-positive ceiling
is replaced by 1. -/
def newDynamicWorkerPool (maxWorkers : ℕ) : PoolState :=
  let m := if maxWorkers = 0 then 1 else maxWorkers
  ⟨m, initWorkers m, 0, 0, false⟩

/-- ClearTaskQueue (pool.go lines 112-120). -/
def clearTaskQueue (p : PoolState) : PoolState :=
  { p with queueLen := 0 }

/-- Stop (pool.go lines 122-133): signal every active worker to halt
(clearing its active flag), zero the active count, set stopped. -/
def stopPool (p : PoolState) : PoolState :=
  { p with
    workers := p.workers.map fun w => { w with active := false }
    activeWorkers := 0
    stopped := true }

/-- Start (pool.go lines 135-142): when no workers are counted active,
respawn the task handler and clear the stopped flag. -/
def startPool (p : PoolState) : PoolState :=
  if p.activeWorkers = 0 then { p with stopped := false } else p

/-- SubmitTask (pool.go lines 144-146): enqueue one task. -/
def submitTask (p : PoolState) : PoolState :=
  { p with queueLen := p.queueLen + 1 }

/-- GetMaxWorkers (pool.go lines 181-185). -/
def getMaxWorkers (p : PoolState) : ℕ :=
  p.maxWorkers

/-- addWorker (pool.go lines 212-219): append a new worker only while
below the ceiling. -/
def addWorker (p : PoolState) : PoolState :=
  if p.workers.length < p.maxWorkers then
    { p with workers := p.workers ++ [⟨p.workers.length, false⟩] }
  else p

/-- n successive addWorker calls. -/
def iterateAddWorker : ℕ → PoolState → PoolState
  | 0, p => p
  | n + 1, p => addWorker (iterateAddWorker n p)

/-- IncreaseMaxWorkers (pool.go lines 187-195): raise the ceiling by n,
then add n workers through addWorker. -/
def increaseMaxWorkers (n : ℕ) (p : PoolState) : PoolState :=
  if n = 0 then p
  else iterateAddWorker n { p with maxWorkers := p.maxWorkers + n }

/-- Remove up to n workers whose active flag matches the given value,
stopping each removed worker (its flag is discarded with it).  Models
the effective removals of the two range loops of DecreaseMaxWorkers;
the Go loops mutate the slice while ranging over it, but every
iteration only ever deletes entries. -/
def removeWorkers (isActive : Bool) : List WorkerState → ℕ → List WorkerState × ℕ
  | ws, 0 => (ws, 0)
  | [], _ => ([], 0)
  | w :: ws, n + 1 =>
    if w.active = isActive then
      ((removeWorkers isActive ws n).1, (removeWorkers isActive ws n).2 + 1)
    else
      (w :: (removeWorkers isActive ws (n + 1)).1, (removeWorkers isActive ws (n + 1)).2)

/-- DecreaseMaxWorkers (pool.go lines 148-179): clamp n to the ceiling,
remove idle workers first, then active ones if still short.  Note that
the ceiling field maxWorkers itself is never written. -/
def decreaseMaxWorkers (n : ℕ) (p : PoolState) : PoolState :=
  let m := min n p.maxWorkers
  let pass1 := removeWorkers false p.workers m
  { p with workers := (removeWorkers true pass1.1 (m - pass1.2)).1 }

/-- The activation sweep of taskHandler (pool.go lines 237-252): start
inactive workers, counting each, and break as soon as the count reaches
the ceiling (the check runs after each increment). -/
def activateSweep (maxW : ℕ) : List WorkerState → ℕ → List WorkerState × ℕ
  | [], a => ([], a)
  | w :: ws, a =>
    if w.active then
      (w :: (activateSweep maxW ws a).1, (activateSweep maxW ws a).2)
    else
      if maxW ≤ a + 1 then ({ w with active := true } :: ws, a + 1)
      else
        ({ w with active := true } :: (activateSweep maxW ws (a + 1)).1,
          (activateSweep maxW ws (a + 1)).2)

/-- The deactivation sweep of taskHandler (pool.go lines 254-273): stop
active workers, decrementing the count, and break when it reaches 0. -/
def deactivateSweep : List WorkerState → ℕ → List WorkerState × ℕ
  | [], a => ([], a)
  | w :: ws, a =>
    if w.active then
      if a - 1 = 0 then ({ w with active := false } :: ws, 0)
      else
        ({ w with active := false } :: (deactivateSweep ws (a - 1)).1,
          (deactivateSweep ws (a - 1)).2)
    else
      (w :: (deactivateSweep ws a).1, (deactivateSweep ws a).2)

/-- One scheduler iteration of taskHandler, activation half: only runs
when tasks are queued and the count is below the ceiling. -/
def taskHandlerActivate (p : PoolState) : PoolState :=
  if 0 < p.queueLen ∧ p.activeWorkers < p.maxWorkers then
    { p with
      workers := (activateSweep p.maxWorkers p.workers p.activeWorkers).1
      activeWorkers := (activateSweep p.maxWorkers p.workers p.activeWorkers).2 }
  else p

/-- One scheduler iteration of taskHandler, deactivation half: only
runs when the queue is empty and workers are counted active. -/
def taskHandlerDeactivate (p : PoolState) : PoolState :=
  if p.queueLen = 0 ∧ 0 < p.activeWorkers then
    { p with
      workers := (deactivateSweep p.workers p.activeWorkers).1
      activeWorkers := (deactivateSweep p.workers p.activeWorkers).2 }
  else p

/-- The reachable pool states: any pool built by NewDynamicWorkerPool,
closed under every exported operation and both scheduler halves. -/
inductive PoolReach : PoolState → Prop
  | init (m : ℕ) : PoolReach (newDynamicWorkerPool m)
  | clear {p} : PoolReach p → PoolReach (clearTaskQueue p)
  | stop {p} : PoolReach p → PoolReach (stopPool p)
  | start {p} : PoolReach p → PoolReach (startPool p)
  | submit {p} : PoolReach p → PoolReach (submitTask p)
  | increase {p} (n : ℕ) : PoolReach p → PoolReach (increaseMaxWorkers n p)
  | decrease {p} (n : ℕ) : PoolReach p → PoolReach (decreaseMaxWorkers n p)
  | activate {p} : PoolReach p → PoolReach (taskHandlerActivate p)
  | deactivate {p} : PoolReach p → PoolReach (taskHandlerDeactivate p)

/-! ## The first-match race (submitTasks and sendResult) -/

/-- The cross-task shared state of one search: the atomic found flag,
the number of results pushed onto the result channel, and the number of
compare-and-swap wins. -/
structure RaceState where
  flag : Bool
  sends : ℕ
  casWins : ℕ
deriving DecidableEq

/-- One shared-state event of a search task (submitTasks lines 355-385):
a candidate match attempts CompareAndSwapInt32(matchFound, 0, 1).  The
winner (flag still clear) sets the flag and sends its coordinates; a
loser leaves the state untouched and discards its candidate.  Steps
that do not touch the shared state are not represented. -/
inductive RaceStep : RaceState → RaceState → Prop
  | casWin {s : RaceState} : s.flag = false →
      RaceStep s ⟨true, s.sends + 1, s.casWins + 1⟩
  | casLose {s : RaceState} : s.flag = true → RaceStep s s

/-- Shared states reachable during one search: the flag starts clear
with nothing sent, and tasks interleave arbitrarily many events. -/
inductive SearchReach : RaceState → Prop
  | init : SearchReach ⟨false, 0, 0⟩
  | step {s s'} : SearchReach s → RaceStep s s' → SearchReach s'

/-! ## Find options (matcher__find_builder.go, matcher.go lines 61-71) -/

/-- A FindBuilderOption: ThresholdOpt or TimeoutOpt.  Durations are in
nanoseconds, as Go time.Duration counts them. -/
inductive FindOption where
  | thresholdOpt (v : ℚ)
  | timeoutOpt (v : ℤ)
deriving DecidableEq

/-- The findBuilderOption record the options mutate. -/
structure FindBuilderOption where
  Threshold : ℚ
  Timeout : ℤ
deriving DecidableEq

/-- Application of one option function to the record. -/
def applyFindOption (f : FindBuilderOption) (o : FindOption) : FindBuilderOption :=
  match o with
  | .thresholdOpt v => { f with Threshold := v }
  | .timeoutOpt v => { f with Timeout := v }

/-- One nanosecond per unit: 500 milliseconds. -/
def fiveHundredMilliseconds : ℤ := 500 * 1000000

/-- The option-resolution prefix of FindTemplate (matcher.go lines
62-71): start from the zero record, apply the options in order, then
default a zero threshold to 100.0 and a zero timeout to 500ms. -/
def resolveFindOptions (opts : List FindOption) : FindBuilderOption :=
  let fbo := opts.foldl applyFindOption ⟨0, 0⟩
  let fbo := if fbo.Threshold = 0 then { fbo with Threshold := 100 } else fbo
  if fbo.Timeout = 0 then { fbo with Timeout := fiveHundredMilliseconds } else fbo

/-! ## Scorer lemmas -/

theorem sq3_nonneg (a b c : ℚ) : 0 ≤ a * a + b * b + c * c := by
  nlinarith [mul_self_nonneg a, mul_self_nonneg b, mul_self_nonneg c]

theorem pixelErr_nonneg (lD sD : ℕ → ℕ) (sx sy lrs srs lbpp sbpp r c : ℕ) :
    0 ≤ pixelErr lD sD sx sy lrs srs lbpp sbpp r c := by
  simp only [pixelErr]
  exact sq3_nonneg _ _ _

theorem windowErrs_nonneg (lD sD : ℕ → ℕ) (sx sy lrs srs lbpp sbpp w h : ℕ) :
    ∀ e ∈ windowErrs lD sD sx sy lrs srs lbpp sbpp w h, 0 ≤ e := by
  intro e he
  unfold windowErrs at he
  simp only [List.mem_flatMap, List.mem_map, List.mem_range] at he
  obtain ⟨r, -, c, -, rfl⟩ := he
  exact pixelErr_nonneg lD sD sx sy lrs srs lbpp sbpp r c

theorem accumUntil_le_sum (L : ℚ) (l : List ℚ) (acc : ℚ)
    (hnn : ∀ e ∈ l, 0 ≤ e) : accumUntil L l acc ≤ acc + l.sum := by
  induction l generalizing acc with
  | nil => simp [accumUntil]
  | cons e rest ih =>
    have hrest : ∀ x ∈ rest, 0 ≤ x := fun x hx => hnn x (List.mem_cons_of_mem e hx)
    have hsum : 0 ≤ rest.sum := List.sum_nonneg hrest
    simp only [accumUntil, List.sum_cons]
    split
    · linarith
    · have := ih (acc + e) hrest
      linarith

theorem accumUntil_cases (L : ℚ) (l : List ℚ) (acc : ℚ) :
    accumUntil L l acc = acc + l.sum ∨ L < accumUntil L l acc := by
  induction l generalizing acc with
  | nil => simp [accumUntil]
  | cons e rest ih =>
    simp only [accumUntil, List.sum_cons]
    split
    · right; assumption
    · rcases ih (acc + e) with h | h
      · left; rw [h]; ring
      · right; exact h

theorem accumUntil_le_iff (L : ℚ) (l : List ℚ)
    (hnn : ∀ e ∈ l, 0 ≤ e) : accumUntil L l 0 ≤ L ↔ l.sum ≤ L := by
  constructor
  · intro h
    rcases accumUntil_cases L l 0 with heq | hlt
    · rw [heq] at h; linarith
    · linarith
  · intro h
    have := accumUntil_le_sum L l 0 hnn
    linarith

/-- C2.  For every window alignment and every threshold t >= 0 (and a
nonempty template), the early-abort scorer decides like the full
computation: calculateMSE returns a value <= t iff the fully
accumulated score over the whole template footprint (calculateMSEFull)
is <= t, in both plain-MSE and normalized modes. -/
theorem c2_early_abort_iff (lD sD : ℕ → ℕ)
    (sx sy lrs srs lbpp sbpp w h : ℕ) (normed : Bool)
    (stsq : ℚ) (ii : ℕ → ℕ → ℚ) (t : ℚ)
    (ht : 0 ≤ t) (hw : 0 < w) (hh : 0 < h) :
    (calculateMSE lD sD sx sy lrs srs lbpp sbpp w h normed stsq ii t ≤ t ↔
      calculateMSEFull lD sD sx sy lrs srs lbpp sbpp w h normed stsq ii ≤ t) := by
  have hnn := windowErrs_nonneg lD sD sx sy lrs srs lbpp sbpp w h
  have key : ∀ D : ℚ, 0 < D →
      (accumUntil (t * D) (windowErrs lD sD sx sy lrs srs lbpp sbpp w h) 0 / D ≤ t ↔
        (windowErrs lD sD sx sy lrs srs lbpp sbpp w h).sum / D ≤ t) := by
    intro D hD
    rw [div_le_iff₀ hD, div_le_iff₀ hD, accumUntil_le_iff _ _ hnn]
  cases normed with
  | false =>
    simp only [calculateMSE, calculateMSEFull, Bool.false_eq_true, if_false]
    have hpc : (0 : ℚ) < ((w * h : ℕ) : ℚ) * 3 := by
      have : 0 < w * h := Nat.mul_pos hw hh
      positivity
    exact key _ hpc
  | true =>
    simp only [calculateMSE, calculateMSEFull, if_true]
    by_cases hdeg : ratSqrt (stsq * getPatchSumSq ii sx sy w h) < 1 / 1000000
    · rw [if_pos hdeg, if_pos hdeg]
    · rw [if_neg hdeg, if_neg hdeg]
      have hpos : 0 < ratSqrt (stsq * getPatchSumSq ii sx sy w h) := by
        have h0 := ratSqrt_nonneg (stsq * getPatchSumSq ii sx sy w h)
        push_neg at hdeg
        have h1 : (0 : ℚ) < 1 / 1000000 := by norm_num
        linarith
      exact key _ hpos

/-! ## Decision-policy theorems (submitTasks) -/

/-- C1 (amended).  For every window and every threshold t >= 0, let m be
the window score: the task accepts with no verification recompute
whenever m <= 0.9t (including the whole of (t/5, 0.9t]); it performs
exactly one verification recompute before accepting when
0.9t < m <= t; and it rejects when m > t. -/
theorem c1_near_threshold_policy (lD sD : ℕ → ℕ)
    (sx sy lrs srs lbpp sbpp w h : ℕ) (stsq : ℚ) (ii : ℕ → ℕ → ℚ) (t : ℚ)
    (ht : 0 ≤ t) :
    (calculateMSE lD sD sx sy lrs srs lbpp sbpp w h true stsq ii t ≤ t * (9 / 10) →
      windowDecision lD sD sx sy lrs srs lbpp sbpp w h stsq ii t = .accepted 0) ∧
    (t * (9 / 10) < calculateMSE lD sD sx sy lrs srs lbpp sbpp w h true stsq ii t →
      calculateMSE lD sD sx sy lrs srs lbpp sbpp w h true stsq ii t ≤ t →
      windowDecision lD sD sx sy lrs srs lbpp sbpp w h stsq ii t = .accepted 1) ∧
    (t < calculateMSE lD sD sx sy lrs srs lbpp sbpp w h true stsq ii t →
      windowDecision lD sD sx sy lrs srs lbpp sbpp w h stsq ii t = .rejected) := by
  simp only [windowDecision]
  set m := calculateMSE lD sD sx sy lrs srs lbpp sbpp w h true stsq ii t with hm
  refine ⟨?_, ?_, ?_⟩
  · intro hle
    split_ifs with h1 h2 h3 h4 <;> first | rfl | (exfalso; linarith)
  · intro hgt hle
    split_ifs with h1 h2 h3 h4 <;> first | rfl | (exfalso; linarith)
  · intro hgt
    split_ifs with h1 h2 h3 h4 <;> first | rfl | (exfalso; linarith)

/-- Concrete 1x1 buffers: the scan pixel has red channel 20, the
template pixel red channel 10, and everything else is zero; with
default row padding, rowSize is 4 and bytesPerPixel 3. -/
def onePixelLarge : ℕ → ℕ := fun i => if i = 0 then 20 else 0

/-- The 1x1 template buffer (red channel 10). -/
def onePixelSmall : ℕ → ℕ := fun i => if i = 0 then 10 else 0

theorem onePixel_patch :
    getPatchSumSq (buildIntegralImageSq onePixelLarge 4 3) 0 0 1 1 = 400 := by
  norm_num [getPatchSumSq, buildIntegralImageSq, integralRowAux, pixSumSq, onePixelLarge]

theorem ratSqrt_40000 : ratSqrt 40000 = 200 := by
  simp [ratSqrt]
  norm_num

/-- The score of the concrete window: sum of squared differences is
100, the normalized denominator is sqrt(100*400) = 200. -/
theorem onePixel_mse :
    calculateMSE onePixelLarge onePixelSmall 0 0 4 4 3 3 1 1 true 100
      (buildIntegralImageSq onePixelLarge 4 3) 1 = 1 / 2 := by
  have hpatch := onePixel_patch
  simp only [calculateMSE, if_true, hpatch]
  norm_num [ratSqrt_40000, windowErrs, pixelErr, accumUntil, onePixelLarge, onePixelSmall]

/-- C1 counterexample: at threshold 1 the concrete window scores 1/2,
which lies in (threshold/5, threshold], yet the task accepts it with
zero verification recomputes, contradicting the claim that every score
in that interval is re-checked once before acceptance. -/
theorem c1_counterexample :
    calculateMSE onePixelLarge onePixelSmall 0 0 4 4 3 3 1 1 true 100
      (buildIntegralImageSq onePixelLarge 4 3) 1 = 1 / 2 ∧
    (1 : ℚ) / 5 < 1 / 2 ∧ ((1 : ℚ) / 2 ≤ 1) ∧
    windowDecision onePixelLarge onePixelSmall 0 0 4 4 3 3 1 1 100
      (buildIntegralImageSq onePixelLarge 4 3) 1 = .accepted 0 := by
  refine ⟨onePixel_mse, by norm_num, by norm_num, ?_⟩
  simp only [windowDecision, onePixel_mse]
  norm_num

/-- Witness for c1_near_threshold_policy at the concrete window. -/
theorem c1_witness :
    0 ≤ (1 : ℚ) ∧
    calculateMSE onePixelLarge onePixelSmall 0 0 4 4 3 3 1 1 true 100
        (buildIntegralImageSq onePixelLarge 4 3) 1 ≤ 1 * (9 / 10) ∧
    windowDecision onePixelLarge onePixelSmall 0 0 4 4 3 3 1 1 100
      (buildIntegralImageSq onePixelLarge 4 3) 1 = .accepted 0 :=
  ⟨by norm_num, by rw [onePixel_mse]; norm_num,
    (c1_near_threshold_policy onePixelLarge onePixelSmall 0 0 4 4 3 3 1 1 100
        (buildIntegralImageSq onePixelLarge 4 3) 1 (by norm_num)).1
      (by rw [onePixel_mse]; norm_num)⟩

/-- C3 (amended).  In normalized mode, for every window whose
denominator sqrt(templateSumSq * windowSumSq) is below the 1e-6
epsilon, the scorer returns the fixed score 1; under the search default
threshold of 100.0 that score satisfies 1 <= 100/5, so the window is
immediately accepted rather than rejected. -/
theorem c3_degenerate_denominator (lD sD : ℕ → ℕ)
    (sx sy lrs srs lbpp sbpp w h : ℕ) (stsq : ℚ) (ii : ℕ → ℕ → ℚ) (t : ℚ)
    (hdeg : ratSqrt (stsq * getPatchSumSq ii sx sy w h) < 1 / 1000000) :
    calculateMSE lD sD sx sy lrs srs lbpp sbpp w h true stsq ii t = 1 ∧
    windowDecision lD sD sx sy lrs srs lbpp sbpp w h stsq ii 100 = .accepted 0 := by
  have hval : ∀ t' : ℚ,
      calculateMSE lD sD sx sy lrs srs lbpp sbpp w h true stsq ii t' = 1 := by
    intro t'
    simp only [calculateMSE, if_true]
    rw [if_pos hdeg]
  refine ⟨hval t, ?_⟩
  simp only [windowDecision, hval 100]
  norm_num

/-- Concrete all-zero buffer: a black 1x1 window and template. -/
def zeroData : ℕ → ℕ := fun _ => 0

/-- C3 counterexample: for the all-black 1x1 window the normalized
denominator is 0 < 1e-6, the scorer returns the forced score 1, and
under the default threshold 100.0 the window is immediately accepted
(1 <= 100/5) — it is not rejected, contradicting the claim that such a
window is never accepted as a match. -/
theorem c3_counterexample :
    ratSqrt (0 * getPatchSumSq (buildIntegralImageSq zeroData 4 3) 0 0 1 1) < 1 / 1000000 ∧
    calculateMSE zeroData zeroData 0 0 4 4 3 3 1 1 true 0
      (buildIntegralImageSq zeroData 4 3) 100 = 1 ∧
    windowDecision zeroData zeroData 0 0 4 4 3 3 1 1 0
      (buildIntegralImageSq zeroData 4 3) 100 = .accepted 0 := by
  have hdeg : ratSqrt (0 * getPatchSumSq (buildIntegralImageSq zeroData 4 3) 0 0 1 1)
      < 1 / 1000000 := by
    norm_num [ratSqrt]
  have hval : calculateMSE zeroData zeroData 0 0 4 4 3 3 1 1 true 0
      (buildIntegralImageSq zeroData 4 3) 100 = 1 := by
    simp only [calculateMSE, if_true]
    rw [if_pos hdeg]
  refine ⟨hdeg, hval, ?_⟩
  simp only [windowDecision, hval]
  norm_num

/-- Witness for c3_degenerate_denominator at the all-black window. -/
theorem c3_witness :
    ratSqrt (0 * getPatchSumSq (buildIntegralImageSq zeroData 4 3) 0 0 1 1) < 1 / 1000000 ∧
    (calculateMSE zeroData zeroData 0 0 4 4 3 3 1 1 true 0
        (buildIntegralImageSq zeroData 4 3) 7 = 1 ∧
      windowDecision zeroData zeroData 0 0 4 4 3 3 1 1 0
        (buildIntegralImageSq zeroData 4 3) 100 = .accepted 0) :=
  ⟨by norm_num [ratSqrt],
    c3_degenerate_denominator zeroData zeroData 0 0 4 4 3 3 1 1 0
      (buildIntegralImageSq zeroData 4 3) 7 (by norm_num [ratSqrt])⟩

/-- Witness for c2_early_abort_iff at the concrete window, t = 1. -/
theorem c2_witness :
    (0 : ℚ) ≤ 1 ∧ (0 < 1) ∧
    (calculateMSE onePixelLarge onePixelSmall 0 0 4 4 3 3 1 1 true 100
        (buildIntegralImageSq onePixelLarge 4 3) 1 ≤ 1 ↔
      calculateMSEFull onePixelLarge onePixelSmall 0 0 4 4 3 3 1 1 true 100
        (buildIntegralImageSq onePixelLarge 4 3) ≤ 1) :=
  ⟨by norm_num, by norm_num,
    c2_early_abort_iff onePixelLarge onePixelSmall 0 0 4 4 3 3 1 1 true 100
      (buildIntegralImageSq onePixelLarge 4 3) 1 (by norm_num) (by norm_num) (by norm_num)⟩

/-! ## Dimension guard (C5) -/

/-- C5.  The dimension error is returned exactly when the template
strictly exceeds the scan in width or height (equality passes), and in
the error case FindTemplate returns with zero tasks submitted. -/
theorem c5_dimension_guard (scan template : BMP) (numWorkers : ℕ) :
    ((findTemplateStart scan template numWorkers).1.isSome ↔
      (scan.Width < template.Width ∨ scan.Height < template.Height)) ∧
    ((scan.Width < template.Width ∨ scan.Height < template.Height) →
      findTemplateStart scan template numWorkers =
        (some "small BMP dimensions exceed large BMP dimensions", 0)) := by
  unfold findTemplateStart validateBMPDimensions
  by_cases hcond : template.Width > scan.Width ∨ template.Height > scan.Height
  · rw [if_pos hcond]
    exact ⟨by simpa using hcond, fun _ => rfl⟩
  · rw [if_neg hcond]
    constructor
    · cases hchunk : chunkBMP scan template.Width template.Height <;>
        simp [hchunk, hcond]
    · intro hlt
      exact absurd hlt hcond

/-- The 1x1 scan used by the dimension-guard witness. -/
def tinyScanBMP : BMP := ⟨1, 1, 24, 1, zeroData⟩

/-- A 2x1 template, wider than tinyScanBMP. -/
def wideTemplateBMP : BMP := ⟨2, 1, 24, 1, zeroData⟩

/-- Witness for c5_dimension_guard: a template wider than the scan. -/
theorem c5_witness :
    (tinyScanBMP.Width < wideTemplateBMP.Width ∨
      tinyScanBMP.Height < wideTemplateBMP.Height) ∧
    findTemplateStart tinyScanBMP wideTemplateBMP 3 =
      (some "small BMP dimensions exceed large BMP dimensions", 0) :=
  ⟨Or.inl (by norm_num [tinyScanBMP, wideTemplateBMP]),
    (c5_dimension_guard tinyScanBMP wideTemplateBMP 3).2
      (Or.inl (by norm_num [tinyScanBMP, wideTemplateBMP]))⟩

/-! ## Worker-pool ceiling (C6) -/

/-- C6 evaluation at the failing input: a pool built with ceiling 2,
after DecreaseMaxWorkers(1), still reports GetMaxWorkers() = 2 — the
ceiling field is never decremented, contradicting the documented
contract that the ceiling drops to m - n. -/
theorem c6_decrease_leaves_ceiling :
    getMaxWorkers (decreaseMaxWorkers 1 (newDynamicWorkerPool 2)) = 2 ∧
    getMaxWorkers (decreaseMaxWorkers 1 (newDynamicWorkerPool 2)) ≠ 2 - 1 := by
  constructor <;>
    simp [getMaxWorkers, decreaseMaxWorkers, newDynamicWorkerPool]

/-! ## The first-match race (C7) -/

/-- C7.  In every reachable shared state of one search, at most one
result has been sent, the compare-and-swap has succeeded at most once,
every send is paired with a compare-and-swap win, and nothing is sent
while the found flag is still clear: only the unique flag claimant
pushes its coordinates, and every other candidate is discarded. -/
theorem c7_single_result {s : RaceState} (h : SearchReach s) :
    s.sends ≤ 1 ∧ s.casWins ≤ 1 ∧ s.sends = s.casWins ∧
    (s.flag = false → s.sends = 0) := by
  have main : s.sends = s.casWins ∧ s.casWins = (if s.flag then 1 else 0) := by
    induction h with
    | init => simp
    | step hs hstep ih =>
      cases hstep with
      | casWin hflag =>
        obtain ⟨ih1, ih2⟩ := ih
        rw [hflag] at ih2
        simp only [if_false, Bool.false_eq_true] at ih2
        simp [ih1, ih2]
      | casLose hflag => exact ih
  obtain ⟨h1, h2⟩ := main
  refine ⟨?_, ?_, h1, ?_⟩
  · rw [h1, h2]; split <;> norm_num
  · rw [h2]; split <;> norm_num
  · intro hflag
    rw [h1, h2, hflag]
    simp

/-- Witness for c7_single_result at the initial state. -/
theorem c7_witness :
    (⟨false, 0, 0⟩ : RaceState).sends ≤ 1 ∧
    (⟨false, 0, 0⟩ : RaceState).casWins ≤ 1 ∧
    (⟨false, 0, 0⟩ : RaceState).sends = (⟨false, 0, 0⟩ : RaceState).casWins ∧
    ((⟨false, 0, 0⟩ : RaceState).flag = false →
      (⟨false, 0, 0⟩ : RaceState).sends = 0) :=
  c7_single_result SearchReach.init

/-! ## Pool idempotence (C8) -/

/-- C8.  Stop on an already-stopped pool changes nothing (stopping
twice equals stopping once, on the whole modelled state), and Start on
an already-started pool (stopped flag clear) returns the state
unchanged; in particular activeWorkers and stopped are untouched. -/
theorem c8_stop_start_idempotent (p : PoolState) (hp : p.stopped = false) :
    stopPool (stopPool p) = stopPool p ∧ startPool p = p := by
  constructor
  · unfold stopPool
    simp [List.map_map, Function.comp_def]
  · unfold startPool
    split
    · cases p
      simp_all
    · rfl

/-- Witness for c8_stop_start_idempotent on a fresh pool. -/
theorem c8_witness :
    (newDynamicWorkerPool 1).stopped = false ∧
    (stopPool (stopPool (newDynamicWorkerPool 1)) = stopPool (newDynamicWorkerPool 1) ∧
      startPool (newDynamicWorkerPool 1) = newDynamicWorkerPool 1) :=
  ⟨rfl, c8_stop_start_idempotent (newDynamicWorkerPool 1) rfl⟩

/-! ## Option defaults (C10) -/

theorem foldl_no_thresholdOpt (l : List FindOption) (f : FindBuilderOption)
    (hl : ∀ v, FindOption.thresholdOpt v ∉ l) :
    (l.foldl applyFindOption f).Threshold = f.Threshold := by
  induction l generalizing f with
  | nil => rfl
  | cons o rest ih =>
    cases o with
    | thresholdOpt v => exact ((hl v) (List.mem_cons_self _ _)).elim
    | timeoutOpt v =>
      simp only [List.foldl_cons]
      rw [ih _ fun u hu => hl u (List.mem_cons_of_mem _ hu)]
      rfl

theorem foldl_no_timeoutOpt (l : List FindOption) (f : FindBuilderOption)
    (hl : ∀ v, FindOption.timeoutOpt v ∉ l) :
    (l.foldl applyFindOption f).Timeout = f.Timeout := by
  induction l generalizing f with
  | nil => rfl
  | cons o rest ih =>
    cases o with
    | timeoutOpt v => exact ((hl v) (List.mem_cons_self _ _)).elim
    | thresholdOpt v =>
      simp only [List.foldl_cons]
      rw [ih _ fun u hu => hl u (List.mem_cons_of_mem _ hu)]
      rfl

/-- C10.  If FindTemplate is given no threshold option (or a zero
threshold), the resolved threshold is 100.0; if it is given no timeout
option (or a zero timeout), the resolved timeout is 500 milliseconds. -/
theorem c10_default_options (opts : List FindOption) :
    ((opts.foldl applyFindOption ⟨0, 0⟩).Threshold = 0 →
      (resolveFindOptions opts).Threshold = 100) ∧
    ((opts.foldl applyFindOption ⟨0, 0⟩).Timeout = 0 →
      (resolveFindOptions opts).Timeout = fiveHundredMilliseconds) ∧
    ((∀ v, FindOption.thresholdOpt v ∉ opts) →
      (resolveFindOptions opts).Threshold = 100) ∧
    ((∀ v, FindOption.timeoutOpt v ∉ opts) →
      (resolveFindOptions opts).Timeout = fiveHundredMilliseconds) := by
  have hthr : (opts.foldl applyFindOption ⟨0, 0⟩).Threshold = 0 →
      (resolveFindOptions opts).Threshold = 100 := by
    intro h
    simp only [resolveFindOptions]
    rw [if_pos h]
    split <;> rfl
  have htmo : (opts.foldl applyFindOption ⟨0, 0⟩).Timeout = 0 →
      (resolveFindOptions opts).Timeout = fiveHundredMilliseconds := by
    intro h
    simp only [resolveFindOptions]
    split <;> simp [h]
  refine ⟨hthr, htmo, ?_, ?_⟩
  · intro hl
    exact hthr (by rw [foldl_no_thresholdOpt _ _ hl])
  · intro hl
    exact htmo (by rw [foldl_no_timeoutOpt _ _ hl])

/-- Witness for c10_default_options with no options given. -/
theorem c10_witness :
    (resolveFindOptions []).Threshold = 100 ∧
    (resolveFindOptions []).Timeout = fiveHundredMilliseconds :=
  ⟨(c10_default_options []).1 rfl, (c10_default_options []).2.1 rfl⟩

/-! ## Pool invariant (C9) -/

/-- The spec invariant: the active counter and the fleet size never
exceed the ceiling. -/
def PoolInv (p : PoolState) : Prop :=
  p.activeWorkers ≤ p.maxWorkers ∧ p.workers.length ≤ p.maxWorkers

theorem initWorkers_length (m : ℕ) : (initWorkers m).length = m := by
  simp [initWorkers]

theorem removeWorkers_length_le (b : Bool) (ws : List WorkerState) (n : ℕ) :
    (removeWorkers b ws n).1.length ≤ ws.length := by
  induction ws generalizing n with
  | nil => cases n <;> simp [removeWorkers]
  | cons w ws ih =>
    cases n with
    | zero => simp [removeWorkers]
    | succ n =>
      simp only [removeWorkers]
      split
      · exact le_trans (ih n) (Nat.le_succ _)
      · simpa using ih (n + 1)

theorem activateSweep_le (maxW : ℕ) (ws : List WorkerState) (a : ℕ)
    (h : a < maxW) : (activateSweep maxW ws a).2 ≤ maxW := by
  induction ws generalizing a with
  | nil => exact le_of_lt h
  | cons w ws ih =>
    simp only [activateSweep]
    split
    · exact ih a h
    · split
      · exact h
      · exact ih (a + 1) (lt_of_not_le (by assumption))

theorem activateSweep_length (maxW : ℕ) (ws : List WorkerState) (a : ℕ) :
    (activateSweep maxW ws a).1.length = ws.length := by
  induction ws generalizing a with
  | nil => rfl
  | cons w ws ih =>
    simp only [activateSweep]
    split
    · simpa using ih a
    · split
      · rfl
      · simpa using ih (a + 1)

theorem deactivateSweep_le (ws : List WorkerState) (a : ℕ) :
    (deactivateSweep ws a).2 ≤ a := by
  induction ws generalizing a with
  | nil => exact le_refl a
  | cons w ws ih =>
    simp only [deactivateSweep]
    split
    · split
      · exact Nat.zero_le a
      · exact le_trans (ih (a - 1)) (Nat.sub_le a 1)
    · exact ih a

theorem deactivateSweep_length (ws : List WorkerState) (a : ℕ) :
    (deactivateSweep ws a).1.length = ws.length := by
  induction ws generalizing a with
  | nil => rfl
  | cons w ws ih =>
    simp only [deactivateSweep]
    split
    · split
      · rfl
      · simpa using ih (a - 1)
    · simpa using ih a

theorem addWorker_inv (p : PoolState) (h : PoolInv p) :
    PoolInv (addWorker p) ∧ (addWorker p).maxWorkers = p.maxWorkers := by
  obtain ⟨h1, h2⟩ := h
  unfold addWorker PoolInv
  split
  · refine ⟨⟨h1, ?_⟩, rfl⟩
    simpa using Nat.succ_le_of_lt (by assumption)
  · exact ⟨⟨h1, h2⟩, rfl⟩

theorem iterateAddWorker_inv (n : ℕ) (p : PoolState) (h : PoolInv p) :
    PoolInv (iterateAddWorker n p) := by
  induction n with
  | zero => exact h
  | succ n ih => exact (addWorker_inv (iterateAddWorker n p) ih).1

/-- C9.  Every reachable pool state satisfies the invariant
activeWorkers <= maxWorkers and len(workers) <= maxWorkers: pool
construction establishes it and every operation, including both
scheduler halves, preserves it. -/
theorem c9_pool_invariant {p : PoolState} (h : PoolReach p) :
    p.activeWorkers ≤ p.maxWorkers ∧ p.workers.length ≤ p.maxWorkers := by
  induction h with
  | init m =>
    simp only [newDynamicWorkerPool]
    constructor
    · exact Nat.zero_le _
    · rw [initWorkers_length]
  | clear hp ih => exact ih
  | stop hp ih =>
    obtain ⟨ih1, ih2⟩ := ih
    unfold stopPool
    exact ⟨Nat.zero_le _, by simpa using ih2⟩
  | start hp ih =>
    obtain ⟨ih1, ih2⟩ := ih
    unfold startPool
    split
    · exact ⟨ih1, ih2⟩
    · exact ⟨ih1, ih2⟩
  | submit hp ih => exact ih
  | @increase p' n hp ih =>
    unfold increaseMaxWorkers
    split
    · exact ih
    · obtain ⟨ih1, ih2⟩ := ih
      have hbase : PoolInv { p' with maxWorkers := p'.maxWorkers + n } :=
        ⟨le_trans ih1 (Nat.le_add_right _ _), le_trans ih2 (Nat.le_add_right _ _)⟩
      exact iterateAddWorker_inv n _ hbase
  | @decrease p' n hp ih =>
    obtain ⟨ih1, ih2⟩ := ih
    unfold decreaseMaxWorkers
    refine ⟨ih1, ?_⟩
    exact le_trans (removeWorkers_length_le _ _ _)
      (le_trans (removeWorkers_length_le _ _ _) ih2)
  | @activate p' hp ih =>
    obtain ⟨ih1, ih2⟩ := ih
    unfold taskHandlerActivate
    split
    · rename_i hcond
      refine ⟨activateSweep_le _ _ _ hcond.2, ?_⟩
      rw [activateSweep_length]
      exact ih2
    · exact ⟨ih1, ih2⟩
  | @deactivate p' hp ih =>
    obtain ⟨ih1, ih2⟩ := ih
    unfold taskHandlerDeactivate
    split
    · refine ⟨le_trans (deactivateSweep_le _ _) ih1, ?_⟩
      rw [deactivateSweep_length]
      exact ih2
    · exact ⟨ih1, ih2⟩

/-- Witness for c9_pool_invariant on a freshly built pool. -/
theorem c9_witness :
    (newDynamicWorkerPool 2).activeWorkers ≤ (newDynamicWorkerPool 2).maxWorkers ∧
    (newDynamicWorkerPool 2).workers.length ≤ (newDynamicWorkerPool 2).maxWorkers :=
  c9_pool_invariant (PoolReach.init 2)

/-! ## Chunk coverage (C4) -/

/-- Per-axis geometry of the partitioner when the template is strictly
smaller than the scan on that axis: the chunk dimension holds a full
template, the overlap is smaller than the chunk dimension (so the
stride is positive), and the overlap is at least template-1. -/
theorem chunkDim_axis_facts (W t : ℕ) (ht : 0 < t) (htW : t < W) :
    t ≤ chunkDimFor W t ∧
    overlapDimFor W t (chunkDimFor W t) < chunkDimFor W t ∧
    t ≤ overlapDimFor W t (chunkDimFor W t) + 1 := by
  by_cases hcase : W < t * 6
  · have hcd : chunkDimFor W t = W := by
      simp only [chunkDimFor]
      rw [if_pos hcase]
    have hov : overlapDimFor W t W = t := by
      simp [overlapDimFor]
    rw [hcd, hov]
    omega
  · have h6 : t * 6 ≤ W := le_of_not_lt hcase
    have htQ : (1 : ℚ) ≤ (t : ℚ) := by exact_mod_cast ht
    have hc2 : (2 : ℚ) ≤ min 6 (max 2 (((W : ℚ) / (t : ℚ)) / 4)) :=
      le_min (by norm_num) (le_max_left _ _)
    have hfloor : (2 * t : ℤ) ≤ ⌊(t : ℚ) * min 6 (max 2 (((W : ℚ) / (t : ℚ)) / 4))⌋ := by
      rw [Int.le_floor]
      push_cast
      nlinarith
    have htn : 2 * t ≤ Int.toNat ⌊(t : ℚ) * min 6 (max 2 (((W : ℚ) / (t : ℚ)) / 4))⌋ := by
      omega
    have hdiv : 2 * t ≤ W / 3 := by omega
    have hcd : chunkDimFor W t =
        min (Int.toNat ⌊(t : ℚ) * min 6 (max 2 (((W : ℚ) / (t : ℚ)) / 4))⌋) (W / 3) := by
      simp only [chunkDimFor]
      rw [if_neg hcase]
    have hbase : 2 * t ≤ chunkDimFor W t := by
      rw [hcd]
      exact le_min htn hdiv
    have hWpos : 0 < W := by omega
    have hlt : chunkDimFor W t < W := by
      rw [hcd]
      exact lt_of_le_of_lt (min_le_right _ _) (Nat.div_lt_self hWpos (by norm_num))
    have hod : overlapDimFor W t (chunkDimFor W t) =
        max (t - 1) (Int.toNat ⌊(t : ℚ) / max (3 / 2 : ℚ) (((W : ℚ) / (t : ℚ)) / 8)⌋) := by
      simp only [overlapDimFor]
      rw [if_neg (ne_of_lt hlt)]
    have hMl : (3 / 2 : ℚ) ≤ max (3 / 2 : ℚ) (((W : ℚ) / (t : ℚ)) / 8) := le_max_left _ _
    have hMpos : (0 : ℚ) < max (3 / 2 : ℚ) (((W : ℚ) / (t : ℚ)) / 8) :=
      lt_of_lt_of_le (by norm_num) hMl
    have hq : (t : ℚ) / max (3 / 2 : ℚ) (((W : ℚ) / (t : ℚ)) / 8) < (t : ℚ) := by
      rw [div_lt_iff₀ hMpos]
      nlinarith
    have hflr : ⌊(t : ℚ) / max (3 / 2 : ℚ) (((W : ℚ) / (t : ℚ)) / 8)⌋ < (t : ℤ) := by
      rw [Int.floor_lt]
      push_cast
      exact hq
    have hflrn : Int.toNat ⌊(t : ℚ) / max (3 / 2 : ℚ) (((W : ℚ) / (t : ℚ)) / 8)⌋ ≤ t - 1 := by
      omega
    have hov : overlapDimFor W t (chunkDimFor W t) = t - 1 := by
      rw [hod]
      exact max_eq_left hflrn
    rw [hov]
    omega

/-- Per-axis coverage: under the geometry facts, every template-start
offset sx on the axis is covered by a grid start x whose clipped chunk
extent still holds a full template. -/
theorem gridStarts_cover (W t cdim olap : ℕ) (ht : 0 < t)
    (h1 : t ≤ cdim) (h2 : olap < cdim) (h3 : t ≤ olap + 1)
    (sx : ℕ) (hsx : sx + t ≤ W) :
    ∃ x ∈ gridStarts W (cdim - olap),
      x ≤ sx ∧ t ≤ (if W < x + cdim then W - x else cdim) ∧
        sx + t ≤ x + (if W < x + cdim then W - x else cdim) := by
  have hspos : 0 < cdim - olap := by omega
  set s := cdim - olap with hs
  set k := sx / s with hk
  have hxle : k * s ≤ sx := Nat.div_mul_le_self sx s
  have hxlt : sx < k * s + s := by
    have hdm : s * k + sx % s = sx := Nat.div_add_mod sx s
    have hmod : sx % s < s := Nat.mod_lt sx hspos
    have hcomm : s * k = k * s := Nat.mul_comm s k
    omega
  have hxW : k * s < W := by omega
  have hmem : k * s ∈ gridStarts W s := by
    unfold gridStarts
    refine List.mem_map.2 ⟨k, List.mem_range.2 ?_, rfl⟩
    have hks : (k + 1) * s ≤ W + s - 1 := by
      have hexp : (k + 1) * s = k * s + s := by ring
      omega
    exact lt_of_lt_of_le (Nat.lt_succ_self k)
      (Nat.succ_le_of_lt (Nat.lt_of_lt_of_le (Nat.lt_succ_self k)
        ((Nat.le_div_iff_mul_le hspos).2 hks)) |>.trans (le_refl _))
  refine ⟨k * s, hmem, by omega, ?_, ?_⟩
  · by_cases hend : W < k * s + cdim
    · rw [if_pos hend]
      omega
    · rw [if_neg hend]
      omega
  · by_cases hend : W < k * s + cdim
    · rw [if_pos hend]
      omega
    · rw [if_neg hend]
      omega

/-- C4 (amended).  For every scan strictly larger than the template in
both axes (tw < W, th < H, template nonempty), chunkBMP returns, and
for every window start (sx, sy) with sx + tw <= W and sy + th <= H it
produces a chunk fully containing the template-sized window there.
When the template equals the scan on an axis the stride degenerates to
zero and chunkBMP does not return at all (modelled as none), which is
why the claim needs strict inequalities. -/
theorem c4_chunk_coverage (largeBMP : BMP) (tw th sx sy : ℕ)
    (htw : 0 < tw) (hth : 0 < th)
    (hw : tw < largeBMP.Width) (hh : th < largeBMP.Height)
    (hsx : sx + tw ≤ largeBMP.Width) (hsy : sy + th ≤ largeBMP.Height) :
    ∃ cs, chunkBMP largeBMP tw th = some cs ∧
      ∃ c ∈ cs, c.X ≤ sx ∧ c.Y ≤ sy ∧
        sx + tw ≤ c.X + c.Width ∧ sy + th ≤ c.Y + c.Height := by
  obtain ⟨hW1, hW2, hW3⟩ := chunkDim_axis_facts largeBMP.Width tw htw hw
  obtain ⟨hH1, hH2, hH3⟩ := chunkDim_axis_facts largeBMP.Height th hth hh
  have hguard : ¬(chunkDimFor largeBMP.Width tw ≤
        overlapDimFor largeBMP.Width tw (chunkDimFor largeBMP.Width tw) ∨
      chunkDimFor largeBMP.Height th ≤
        overlapDimFor largeBMP.Height th (chunkDimFor largeBMP.Height th)) := by
    push_neg
    exact ⟨hW2, hH2⟩
  have hbmp : chunkBMP largeBMP tw th =
      some ((gridStarts largeBMP.Height (chunkDimFor largeBMP.Height th -
          overlapDimFor largeBMP.Height th (chunkDimFor largeBMP.Height th))).flatMap fun y0 =>
        (gridStarts largeBMP.Width (chunkDimFor largeBMP.Width tw -
            overlapDimFor largeBMP.Width tw (chunkDimFor largeBMP.Width tw))).filterMap fun x0 =>
          chunkAt largeBMP.Data largeBMP.Width largeBMP.Height tw th
            (chunkDimFor largeBMP.Width tw) (chunkDimFor largeBMP.Height th)
            (((largeBMP.Width * calcBytesPerPixel largeBMP.BiBitCount + 3) / 4) * 4)
            (calcBytesPerPixel largeBMP.BiBitCount) x0 y0) := by
    simp only [chunkBMP]
    rw [if_neg hguard]
  obtain ⟨x, hxmem, hxle, hxw, hxcov⟩ :=
    gridStarts_cover largeBMP.Width tw _ _ htw hW1 hW2 hW3 sx hsx
  obtain ⟨y, hymem, hyle, hyh, hycov⟩ :=
    gridStarts_cover largeBMP.Height th _ _ hth hH1 hH2 hH3 sy hsy
  have hcAt : chunkAt largeBMP.Data largeBMP.Width largeBMP.Height tw th
      (chunkDimFor largeBMP.Width tw) (chunkDimFor largeBMP.Height th)
      (((largeBMP.Width * calcBytesPerPixel largeBMP.BiBitCount + 3) / 4) * 4)
      (calcBytesPerPixel largeBMP.BiBitCount) x y =
      some ⟨extractChunk largeBMP.Data x y
          (if largeBMP.Width < x + chunkDimFor largeBMP.Width tw then
            largeBMP.Width - x else chunkDimFor largeBMP.Width tw)
          (if largeBMP.Height < y + chunkDimFor largeBMP.Height th then
            largeBMP.Height - y else chunkDimFor largeBMP.Height th)
          (((largeBMP.Width * calcBytesPerPixel largeBMP.BiBitCount + 3) / 4) * 4)
          (calcBytesPerPixel largeBMP.BiBitCount), x, y,
        (if largeBMP.Width < x + chunkDimFor largeBMP.Width tw then
          largeBMP.Width - x else chunkDimFor largeBMP.Width tw),
        (if largeBMP.Height < y + chunkDimFor largeBMP.Height th then
          largeBMP.Height - y else chunkDimFor largeBMP.Height th)⟩ := by
    simp only [chunkAt]
    rw [if_neg (not_lt.2 hxw), if_neg (not_lt.2 hyh)]
  refine ⟨_, hbmp, ⟨_,
    List.mem_flatMap.2 ⟨y, hymem, List.mem_filterMap.2 ⟨x, hxmem, hcAt⟩⟩,
    hxle, hyle, hxcov, hycov⟩⟩

/-- The 10x10 scan whose template equals it in both axes. -/
def cexScanBMP : BMP := ⟨10, 10, 24, 10, fun _ => 0⟩

/-- C4 counterexample: with a 10x10 scan and a 10x10 template (tw = W,
th = H — allowed by the claim, which only requires tw <= W and
th <= H), both strides are zero: the Go code divides by zero sizing the
row table / loops forever, so no chunk list is produced and no chunk
covers the valid window start (0,0). -/
theorem c4_counterexample :
    (0 < 10 ∧ 10 ≤ cexScanBMP.Width ∧ 10 ≤ cexScanBMP.Height ∧
      0 + 10 ≤ cexScanBMP.Width ∧ 0 + 10 ≤ cexScanBMP.Height) ∧
    chunkBMP cexScanBMP 10 10 = none ∧
    ¬ ∃ cs, chunkBMP cexScanBMP 10 10 = some cs ∧
        ∃ c ∈ cs, c.X ≤ 0 ∧ c.Y ≤ 0 ∧
          0 + 10 ≤ c.X + c.Width ∧ 0 + 10 ≤ c.Y + c.Height := by
  have hcw : chunkDimFor 10 10 = 10 := by
    simp [chunkDimFor]
  have hox : overlapDimFor 10 10 10 = 10 := by
    simp [overlapDimFor]
  have hnone : chunkBMP cexScanBMP 10 10 = none := by
    simp only [chunkBMP, cexScanBMP]
    rw [if_pos]
    exact Or.inl (by rw [hcw, hox])
  refine ⟨by norm_num [cexScanBMP], hnone, ?_⟩
  rintro ⟨cs, hcs, -⟩
  rw [hnone] at hcs
  exact Option.noConfusion hcs

/-- The 100x100 scan used by the coverage witness. -/
def scan100BMP : BMP := ⟨100, 100, 24, 100, fun _ => 0⟩

/-- Witness for c4_chunk_coverage: a 10x10 template in a 100x100 scan,
window start (5, 7). -/
theorem c4_witness :
    (0 < 10 ∧ 10 < scan100BMP.Width ∧ 10 < scan100BMP.Height ∧
      5 + 10 ≤ scan100BMP.Width ∧ 7 + 10 ≤ scan100BMP.Height) ∧
    (∃ cs, chunkBMP scan100BMP 10 10 = some cs ∧
      ∃ c ∈ cs, c.X ≤ 5 ∧ c.Y ≤ 7 ∧
        5 + 10 ≤ c.X + c.Width ∧ 7 + 10 ≤ c.Y + c.Height) :=
  ⟨by norm_num [scan100BMP],
    c4_chunk_coverage scan100BMP 10 10 5 7 (by norm_num) (by norm_num)
      (by norm_num [scan100BMP]) (by norm_num [scan100BMP])
      (by norm_num [scan100BMP]) (by norm_num [scan100BMP])⟩
